import Mathlib

/-!
Verification development for the TutorAI Hinglish tutoring chat application.

The definitions below are a shallow embedding of the TypeScript source:
  * `src/types.ts`        — the data model (ChatMessage, ChatSession, UserProfile, AppState, actions)
  * `src/App.tsx`         — the reducer `appReducer`, `processResponse`, and the `handleAction` handler
  * `src/services/geminiService.ts` — `getMockResponse`, `cleanJson`, and the TTS text cleaning
  * `src/services/audioUtils.ts`    — the single-active-source audio playback discipline

JavaScript strings are modelled as Lean `String`/`List Char` (length = number of
code points), `Date.now()` is passed in as an explicit `now : Nat` parameter, and
JS truthiness of optional strings (`undefined`/empty string are falsy) is modelled
explicitly where the code relies on it.
-/

namespace TutorAI

/-- `Sender` enum from src/types.ts: `User = 'user'`, `Bot = 'model'`. -/
inductive Sender where
  | user
  | bot
deriving Repr, DecidableEq

/-- `ChatMessage` from src/types.ts. `image` and `isAudioPlaying` are optional. -/
structure ChatMessage where
  id : String
  role : Sender
  text : String
  image : Option String := none
  isAudioPlaying : Option Bool := none
deriving Repr, DecidableEq

/-- `ChatSession` from src/types.ts. -/
structure ChatSession where
  id : String
  title : String
  timestamp : Nat
  messages : List ChatMessage
deriving Repr, DecidableEq

/-- `ProgressReport` from src/types.ts. -/
structure ProgressReport where
  commonMistakes : List String
  learningTips : List String
  generatedAt : Nat
deriving Repr, DecidableEq

/-- `RevisionPlan` from src/types.ts. -/
structure RevisionPlan where
  topic : String
  tasks : List String
deriving Repr, DecidableEq

/-- `UserProfile` from src/types.ts. -/
structure UserProfile where
  name : String
  weakTopics : List String
  strongTopics : List String
  totalSessions : Nat
  streakDays : Nat
  lastStudyDate : String
  progressReport : Option ProgressReport := none
  revisionPlan : Option RevisionPlan := none
deriving Repr, DecidableEq

/-- `Partial<UserProfile>` as used by the UPDATE_PROFILE action payload. -/
structure PartialProfile where
  name : Option String := none
  weakTopics : Option (List String) := none
  strongTopics : Option (List String) := none
  totalSessions : Option Nat := none
  streakDays : Option Nat := none
  lastStudyDate : Option String := none
  progressReport : Option (Option ProgressReport) := none
  revisionPlan : Option (Option RevisionPlan) := none
deriving Repr, DecidableEq

/-- JS object spread `{ ...profile, ...payload }` for a `Partial<UserProfile>`. -/
def mergeProfile (p : UserProfile) (d : PartialProfile) : UserProfile where
  name := d.name.getD p.name
  weakTopics := d.weakTopics.getD p.weakTopics
  strongTopics := d.strongTopics.getD p.strongTopics
  totalSessions := d.totalSessions.getD p.totalSessions
  streakDays := d.streakDays.getD p.streakDays
  lastStudyDate := d.lastStudyDate.getD p.lastStudyDate
  progressReport := d.progressReport.getD p.progressReport
  revisionPlan := d.revisionPlan.getD p.revisionPlan

/-- `AppMode` enum from src/types.ts. -/
inductive AppMode where
  | upload
  | chat
  | dashboard
  | history
deriving Repr, DecidableEq

/-- `AppState` from src/types.ts. -/
structure AppState where
  messages : List ChatMessage
  chatHistory : List ChatSession
  currentSessionId : Option String
  isLoading : Bool
  currentMode : AppMode
  error : Option String
  userProfile : UserProfile
  isProfileOpen : Bool
  youtubeLink : String
  isListening : Bool
  isOfflineMode : Bool
deriving Repr, DecidableEq

/-- `AppAction` union from src/types.ts. -/
inductive AppAction where
  | setMessages (payload : List ChatMessage)
  | addMessage (payload : ChatMessage)
  | setLoading (payload : Bool)
  | setMode (payload : AppMode)
  | setError (payload : Option String)
  | updateProfile (payload : PartialProfile)
  | toggleProfile (payload : Bool)
  | setYoutubeLink (payload : String)
  | setListening (payload : Bool)
  | resetApp
  | setOfflineMode (payload : Bool)
  | updateMessageAudio (id : String) (isPlaying : Bool)
  | loadSession (payload : ChatSession)
  | deleteSession (payload : String)
  | clearHistory
deriving Repr

/-- JS truthiness of an optional string: `undefined` and `""` are falsy. -/
def jsTruthyStr : Option String → Bool
  | none => false
  | some s => s ≠ ""

/-- The ADD_MESSAGE case of `appReducer` (src/App.tsx lines 31–69).
`now` stands for the `Date.now()` call. The JS test `if (!sessionId)` treats
both `null` and the empty string as "no session". -/
def addMessageReducer (now : Nat) (state : AppState) (payload : ChatMessage) : AppState :=
  let newMessages := state.messages ++ [payload]
  let timestamp := now
  let noSession := ¬ jsTruthyStr state.currentSessionId
  let sessionId := if noSession then toString timestamp else state.currentSessionId.getD ""
  let sessionTitle :=
    if noSession then
      match newMessages.find? (fun m => m.role = Sender.user) with
      | some m =>
          if jsTruthyStr m.image then "Image Question"
          else m.text.take 30 ++ (if m.text.length > 30 then "..." else "")
      | none => "New Chat"
    else
      match state.chatHistory.find? (fun s => s.id = sessionId) with
      | some s => s.title
      | none => "New Chat"
  let updatedHistory :=
    state.chatHistory.filter (fun s => s.id ≠ sessionId) ++
      [{ id := sessionId, title := sessionTitle, timestamp := timestamp, messages := newMessages }]
  { state with
      messages := newMessages
      currentSessionId := some sessionId
      chatHistory := updatedHistory }

/-- `appReducer` from src/App.tsx lines 26–115. `now` models `Date.now()`. -/
def appReducer (now : Nat) (state : AppState) (action : AppAction) : AppState :=
  match action with
  | .setMessages payload => { state with messages := payload }
  | .addMessage payload => addMessageReducer now state payload
  | .setLoading payload => { state with isLoading := payload }
  | .setMode payload => { state with currentMode := payload }
  | .setError payload => { state with error := payload }
  | .updateProfile payload => { state with userProfile := mergeProfile state.userProfile payload }
  | .toggleProfile payload => { state with isProfileOpen := payload }
  | .setYoutubeLink payload => { state with youtubeLink := payload }
  | .setListening payload => { state with isListening := payload }
  | .resetApp =>
      { state with messages := [], currentSessionId := none, currentMode := AppMode.upload }
  | .setOfflineMode payload => { state with isOfflineMode := payload }
  | .updateMessageAudio mid fl =>
      { state with
          messages := state.messages.map
            (fun m => if m.id = mid then { m with isAudioPlaying := some fl } else m) }
  | .loadSession payload =>
      { state with
          messages := payload.messages
          currentSessionId := some payload.id
          currentMode := AppMode.chat }
  | .deleteSession sid =>
      if state.currentSessionId = some sid then
        { state with
            chatHistory := state.chatHistory.filter (fun s => s.id ≠ sid)
            messages := []
            currentSessionId := none
            currentMode := AppMode.upload }
      else
        { state with chatHistory := state.chatHistory.filter (fun s => s.id ≠ sid) }
  | .clearHistory => { state with chatHistory := [] }

/-! ## String utilities mirroring the JavaScript string operations used by the code -/

/-- `String.prototype.includes` on code-point lists: `pat` occurs as a contiguous
sublist of `l`. -/
def listIncludes (pat : List Char) : List Char → Bool
  | [] => pat = []
  | c :: rest => pat.isPrefixOf (c :: rest) || listIncludes pat rest

/-- `String.prototype.includes`. -/
def jsIncludes (s pat : String) : Bool := listIncludes pat.data s.data

/-- `String.prototype.indexOf` for a single character (first index, `none` = -1). -/
def idxOfChar (target : Char) : List Char → Option Nat
  | [] => none
  | c :: rest => if c = target then some 0 else (idxOfChar target rest).map (· + 1)

/-- `String.prototype.lastIndexOf` for a single character (last index, `none` = -1). -/
def lastIdxOfChar (target : Char) : List Char → Option Nat
  | [] => none
  | c :: rest =>
      match lastIdxOfChar target rest with
      | some k => some (k + 1)
      | none => if c = target then some 0 else none

/-- `String.prototype.substring(a, b)`: clamps both indices to the length and
swaps them when `a > b`. -/
def jsSubstring (l : List Char) (a b : Nat) : List Char :=
  let a' := min a l.length
  let b' := min b l.length
  (l.drop (min a' b')).take (max a' b' - min a' b')

/-- Whitespace characters matched by the JS regex class `\s` (ASCII part; the
code only ever produces these). -/
def isJsWs (c : Char) : Bool :=
  c = ' ' || c = '\t' || c = '\n' || c = '\r' || c = '\x0b' || c = '\x0c'

/-- Characters NOT matched by the JS regex `.` (without the `s` flag). -/
def isJsLineTerm (c : Char) : Bool :=
  c = '\n' || c = '\r' || c = '\u2028' || c = '\u2029'

/-! ## The topic-tag regexes of `processResponse` (src/App.tsx lines 183–197)

The match test uses `/\[\[TOPIC:\s*(.*?)\]\]/` and the removal uses
`/\[\[TOPIC:.*?\]\]/` (first occurrence only — no `g` flag). For this fixed
pattern, the greedy `\s*` followed by the lazy `(.*?)` needs no backtracking:
if scanning for the closing `]]` fails after the maximal whitespace run, it
fails from every shorter run as well. -/

/-- The lazy `(.*?)\]\]` part of the test regex: collect the capture group up to
the first `]]`, failing on a line terminator or end of input. -/
def scanGroupCollect : List Char → Option (List Char)
  | [] => none
  | c :: rest =>
      if c = ']' ∧ rest.head? = some ']' then some []
      else if isJsLineTerm c then none else (scanGroupCollect rest).map (c :: ·)

/-- Attempt the test regex `/\[\[TOPIC:\s*(.*?)\]\]/` anchored at the head of
`l`; on success return the capture group. -/
def topicGroupAt (l : List Char) : Option (List Char) :=
  match l with
  | '[' :: '[' :: 'T' :: 'O' :: 'P' :: 'I' :: 'C' :: ':' :: rest =>
      scanGroupCollect (rest.dropWhile isJsWs)
  | _ => none

/-- `rawText.match(/\[\[TOPIC:\s*(.*?)\]\]/)`: the capture group of the first
match, scanning start positions left to right. -/
def findTopicGroup : List Char → Option (List Char)
  | [] => none
  | c :: rest =>
      match topicGroupAt (c :: rest) with
      | some g => some g
      | none => findTopicGroup rest

/-- The lazy `.*?\]\]` part of the removal regex: return the input remainder
after the first `]]`, failing on a line terminator or end of input. -/
def scanToClose : List Char → Option (List Char)
  | [] => none
  | c :: rest =>
      if c = ']' ∧ rest.head? = some ']' then some rest.tail
      else if isJsLineTerm c then none else scanToClose rest

/-- Attempt the removal regex `/\[\[TOPIC:.*?\]\]/` anchored at the head of `l`;
on success return the remainder after the match. -/
def tryTagAt (l : List Char) : Option (List Char) :=
  match l with
  | '[' :: '[' :: 'T' :: 'O' :: 'P' :: 'I' :: 'C' :: ':' :: rest => scanToClose rest
  | _ => none

/-- `rawText.replace(/\[\[TOPIC:.*?\]\]/, '')`: remove the first match only. -/
def stripFirstTopicTag : List Char → List Char
  | [] => []
  | c :: rest =>
      match tryTagAt (c :: rest) with
      | some rem => rem
      | none => c :: stripFirstTopicTag rest

/-- `String.prototype.trim`: strip whitespace from both ends. -/
def jsTrim (s : String) : String :=
  String.mk (((s.data.dropWhile isJsWs).reverse.dropWhile isJsWs).reverse)

/-- The returned text of `processResponse` (src/App.tsx lines 183–197): when the
test regex matches with a truthy (non-empty) capture group, the first
`[[TOPIC:...]]` occurrence is removed and the result trimmed; otherwise the raw
text is returned unchanged. (The streak-update dispatch the function also
performs is modelled separately by `processResponseActions`.) -/
def processResponseText (rawText : String) : String :=
  match findTopicGroup rawText.data with
  | some g =>
      if g ≠ [] then jsTrim (String.mk (stripFirstTopicTag rawText.data))
      else rawText
  | none => rawText

/-- `'str'.split('T')[0]`: the segment before the first `'T'`. -/
def splitTFirst (s : String) : String :=
  String.mk (s.data.takeWhile (fun c => c ≠ 'T'))

/-- The UPDATE_PROFILE dispatch performed inside `processResponse` when a topic
tag with a truthy group is found and the day part of `nowIso` differs from the
day part of the stored `lastStudyDate`. -/
def processResponseActions (st : AppState) (nowIso : String) (rawText : String) : List AppAction :=
  match findTopicGroup rawText.data with
  | some g =>
      if g ≠ [] then
        if splitTFirst nowIso ≠ splitTFirst st.userProfile.lastStudyDate then
          [.updateProfile { streakDays := some (st.userProfile.streakDays + 1),
                            lastStudyDate := some nowIso }]
        else []
      else []
  | none => []

/-! ## The offline fallback engine `getMockResponse`
(src/services/geminiService.ts lines 30–70; exported as `getOfflineResponse`) -/

/-- `ActionType` enum from src/types.ts (a string enum). -/
inductive ActionType where
  | simplify
  | notes
  | quiz
  | explain
  | eli5
  | diagram
  | mnemonic
  | revision
  | practice
deriving Repr, DecidableEq

/-- The runtime string value of each `ActionType` member. -/
def ActionType.val : ActionType → String
  | .simplify => "simplify"
  | .notes => "notes"
  | .quiz => "quiz"
  | .explain => "explain"
  | .eli5 => "eli5"
  | .diagram => "diagram"
  | .mnemonic => "mnemonic"
  | .revision => "revision"
  | .practice => "practice"

/-- `Object.values(ActionType)`. -/
def actionTypeValues : List String :=
  ["simplify", "notes", "quiz", "explain", "eli5", "diagram", "mnemonic", "revision", "practice"]

def photosynthesisMock : String :=
  "🌿 **Photosynthesis (Offline Mode):**\n\n**Process:**\nSunlight ☀️ + Water 💧 + CO2 🌬️ → Food (Glucose) 🍎 + Oxygen 🌬️\n\n**Analogy:**\nJaise Mummy kitchen me gas aur sabzi use karke khana banati hain, waise hi plants **Leaves (Chlorophyll)** me sunlight use karke khana banate hain.\n\n[[TOPIC: Biology]]"

def balanceSheetMock : String :=
  "💰 **Balance Sheet (Offline Mode):**\n\n**Formula:** Assets = Liabilities + Equity\n\n**Concept:**\nYe ek business ka \"Report Card\" hai.\n- **Assets:** Jo tumhare paas hai (Cash, Building).\n- **Liabilities:** Jo udhaar chukana hai (Loans).\n\n[[TOPIC: Accounting]]"

def newtonMock : String :=
  "🍎 **Newton\x27s Laws (Offline Mode):**\n\n**Law 1 (Inertia):** Cheezein rukna ya chalna continue karti hain jab tak force na lage.\n**Law 2 (F=ma):** Zyada mass = Zyada force chahiye hilane ke liye.\n**Law 3 (Action-Reaction):** Har action ka equal opposite reaction hota hai.\n\n[[TOPIC: Physics]]"

def youtubeMock : String :=
  "⚠️ **Offline Mode:**\nMain video analyze nahi kar sakta bina internet ke, par ye **Study Tips** follow karo:\n\n1. **Speed:** 1.5x pe dekho time bachane ke liye.\n2. **Notes:** Video ke beech me pause karke key points likho.\n3. **Summary:** Khud se poocho \"Is video ka main point kya tha?\""

def simplifyMock : String :=
  "🤯 **Simplified (Offline):**\nImagine karo ye ek game ki tarah hai. Jab tak tum start button nahi dabate, game pause rehta hai. Ye concept bhi waisa hi hai!\n\n(Connect to internet for better analogies!)"

def eli5Mock : String :=
  "👶 **ELI5 (Offline):**\nSocho tumhare paas ek bada pizza hai. Agar tum use doston me baatoge, toh sabko kam milega. Yahi concept yahan apply hota hai divide karne par.\n\n[[TOPIC: Math]]"

def mnemonicMock : String :=
  "🧠 **Memory Trick (Offline):**\nEk funny sentence banao words ke first letters se.\nExample: **V**iolet **I**ndigo **B**lue... -> \"VIBGYOR\""

def diagramMock : String :=
  "📐 **Visual Diagram (Offline):**\n```\n   [ Input ] ---> [ Process ] ---> [ Output ]\n```\nOffline diagram: Data flow aise hota hai.\n\n[[TOPIC: Logic]]"

def revisionMock : String :=
  "⚡ **1-Minute Revision (Offline):**\n- Main Definition yaad karlo.\n- Formula rat lo.\n- Unit: SI Units hamesha check karo.\n\n[[TOPIC: Revision]]"

def notesMock : String :=
  "📝 **Offline Notes:**\n- Keywords underline karna.\n- Exam me diagram banana mat bhoolna.\n- Point-wise answers likhna."

def quizMock : String :=
  "❓ **Offline Quiz:**\nQ: Is concept ka main unit kya hai?\nA) Joule\nB) Newton\nC) Watt\n\n(Khud socho! Answer B ho sakta hai 😉)"

def practiceMock : String :=
  "✍️ **Practice (Offline):**\n1. Textbook ka example 3 solve karo.\n2. Previous year paper check karo.\n3. Formula bina dekhe likho."

/-- The `mocks` record of per-action canned texts. `EXPLAIN` has no entry, so
a lookup for it behaves like `undefined` (falsy). -/
def actionMock : ActionType → Option String
  | .simplify => some simplifyMock
  | .eli5 => some eli5Mock
  | .mnemonic => some mnemonicMock
  | .diagram => some diagramMock
  | .revision => some revisionMock
  | .notes => some notesMock
  | .quiz => some quizMock
  | .practice => some practiceMock
  | .explain => none

/-- The generic "Smart Echo" fallback: embeds the first 50 characters of the
input (or the word `Question` when the input is empty/falsy). -/
def genericMock (input : String) : String :=
  "🤖 **Offline Mode Active:**\n\nMaine tumhara question padha: _\"" ++
    (if input = "" then "Question" else input.take 50) ++
    "...\"_\n\nInternet connect nahi hai, par ye steps follow karo solve karne ke liye:\n1. **Question samjho:** Kya pucha gaya hai?\n2. **Formula dhundo:** Apni textbook ke index me topic check karo.\n3. **Step-by-step:** Bada problem chote parts me todo.\n\n(Please check your API Key/Internet for full AI power!)"

/-- `String.prototype.toLowerCase` (ASCII case mapping suffices for the
keywords involved). -/
def jsToLowerCase (s : String) : String := String.mk (s.data.map Char.toLower)

/-- `getMockResponse` from src/services/geminiService.ts lines 30–70
(exported as `getOfflineResponse`). -/
def getMockResponse (input : String) (action : Option ActionType) : String :=
  let lowerInput := if input = "" then "" else jsToLowerCase input
  if jsIncludes lowerInput "photosynthesis" then photosynthesisMock
  else if jsIncludes lowerInput "balance sheet" then balanceSheetMock
  else if jsIncludes lowerInput "newton" || jsIncludes lowerInput "law" then newtonMock
  else if jsIncludes lowerInput "youtube.com" || jsIncludes lowerInput "youtu.be" then youtubeMock
  else
    match action with
    | some a =>
        match actionMock a with
        | some m => m
        | none => genericMock input
    | none => genericMock input

/-- Modelled from the claim text (refinement reference): the offline fallback as
the specification words it — keyword topics first, then the video-tips response
for YouTube links, then the per-action mock of a recognized action (one that has
a per-action mock), and otherwise the generic fallback embedding the first 50
characters of the input. -/
def specOfflineResponse (input : String) (action : Option ActionType) : String :=
  let lower := jsToLowerCase input
  if jsIncludes lower "photosynthesis" then photosynthesisMock
  else if jsIncludes lower "balance sheet" then balanceSheetMock
  else if jsIncludes lower "newton" || jsIncludes lower "law" then newtonMock
  else if jsIncludes lower "youtube.com" || jsIncludes lower "youtu.be" then youtubeMock
  else
    match action.bind actionMock with
    | some m => m
    | none => genericMock input

/-! ## The TTS text cleaning of `generateSpeech`
(src/services/geminiService.ts lines 219–246) -/

/-- `text.replace(/###/g, '')`. -/
def removeHashes : List Char → List Char
  | '#' :: '#' :: '#' :: rest => removeHashes rest
  | c :: rest => c :: removeHashes rest
  | [] => []

/-- `.replace(/\*\*/g, '')`. -/
def removeBold : List Char → List Char
  | '*' :: '*' :: rest => removeBold rest
  | c :: rest => c :: removeBold rest
  | [] => []

/-- `.replace(/`/g, '')` (the backtick removal). -/
def removeBackticks : List Char → List Char
  | [] => []
  | c :: rest => if c = '\x60' then removeBackticks rest else c :: removeBackticks rest

theorem scanToClose_length : ∀ (l rem : List Char), scanToClose l = some rem → rem.length < l.length := by
  intro l
  induction l with
  | nil => intro rem h; simp [scanToClose] at h
  | cons c rest ih =>
    intro rem h
    simp only [scanToClose] at h
    split at h
    · simp only [Option.some.injEq] at h
      subst h
      have : rest.tail.length ≤ rest.length := by simp [List.length_tail]
      simp; omega
    · split at h
      · simp at h
      · have := ih rem h
        simp; omega

theorem tryTagAt_length : ∀ (l rem : List Char), tryTagAt l = some rem → rem.length < l.length := by
  intro l rem h
  rw [tryTagAt.eq_def] at h
  split at h
  · have := scanToClose_length _ _ h
    simp; omega
  · simp at h

/-- `.replace(/\[\[TOPIC:.*?\]\]/g, '')` — the global variant used by the TTS
cleaning (the one in `processResponse` has no `g` flag). -/
def removeTopicTags (l : List Char) : List Char :=
  match l with
  | [] => []
  | c :: rest =>
    match h2 : tryTagAt (c :: rest) with
    | some rem => removeTopicTags rem
    | none => c :: removeTopicTags rest
termination_by l.length
decreasing_by
  · exact tryTagAt_length _ _ h2
  · simp

/-- The lazy `.*?\)` part of `/\[Source\]\(.*?\)/`: return the remainder after
the first `)`, failing on a line terminator or end of input. -/
def scanToParen : List Char → Option (List Char)
  | [] => none
  | c :: rest =>
      if c = ')' then some rest
      else if isJsLineTerm c then none else scanToParen rest

/-- Attempt `/\[Source\]\(.*?\)/` anchored at the head of `l`; on success
return the remainder after the match. -/
def trySourceAt (l : List Char) : Option (List Char) :=
  match l with
  | '[' :: 'S' :: 'o' :: 'u' :: 'r' :: 'c' :: 'e' :: ']' :: '(' :: rest => scanToParen rest
  | _ => none

theorem scanToParen_length : ∀ (l rem : List Char), scanToParen l = some rem → rem.length < l.length := by
  intro l
  induction l with
  | nil => intro rem h; simp [scanToParen] at h
  | cons c rest ih =>
    intro rem h
    simp only [scanToParen] at h
    split at h
    · simp only [Option.some.injEq] at h
      subst h; simp
    · split at h
      · simp at h
      · have := ih rem h
        simp; omega

theorem trySourceAt_length : ∀ (l rem : List Char), trySourceAt l = some rem → rem.length < l.length := by
  intro l rem h
  rw [trySourceAt.eq_def] at h
  split at h
  · have := scanToParen_length _ _ h
    simp; omega
  · simp at h

/-- `.replace(/\[Source\]\(.*?\)/g, '')`. -/
def removeSources (l : List Char) : List Char :=
  match l with
  | [] => []
  | c :: rest =>
    match h2 : trySourceAt (c :: rest) with
    | some rem => removeSources rem
    | none => c :: removeSources rest
termination_by l.length
decreasing_by
  · exact trySourceAt_length _ _ h2
  · simp

/-- The cleaned text `generateSpeech` sends to the TTS model
(src/services/geminiService.ts lines 222–229): the five removal passes in
source order, then truncation to 800 characters when longer. -/
def ttsCleanText (text : String) : String :=
  let cleaned :=
    removeSources (removeBackticks (removeTopicTags (removeBold (removeHashes text.data))))
  if cleaned.length > 800 then String.mk (cleaned.take 800) else String.mk cleaned

/-! ## `cleanJson` (src/services/geminiService.ts lines 81–92) -/

def lbrace : Char := '\x7b'
def rbrace : Char := '\x7d'

/-- `text.replace(/```json/g, "")`. -/
def removeFenceJson : List Char → List Char
  | '\x60' :: '\x60' :: '\x60' :: 'j' :: 's' :: 'o' :: 'n' :: rest => removeFenceJson rest
  | c :: rest => c :: removeFenceJson rest
  | [] => []

/-- `.replace(/```/g, "")`. -/
def removeFence : List Char → List Char
  | '\x60' :: '\x60' :: '\x60' :: rest => removeFence rest
  | c :: rest => c :: removeFence rest
  | [] => []

/-- `cleanJson` from src/services/geminiService.ts lines 81–92: strip markdown
code fences, then cut from the first `{` to the last `}` with
`clean.substring(start, end + 1)` (JS `substring` swaps its arguments when
`start > end + 1`). -/
def cleanJson (text : String) : String :=
  if text = "" then String.mk [lbrace, rbrace]
  else
    let clean := removeFence (removeFenceJson text.data)
    match idxOfChar lbrace clean, lastIdxOfChar rbrace clean with
    | some s, some e => String.mk (jsSubstring clean s (e + 1))
    | some _, none => String.mk [lbrace, rbrace]
    | none, _ => String.mk [lbrace, rbrace]

/-! ## The `handleAction` handler (src/App.tsx lines 282–321)

`action` has TypeScript type `ActionType | string`, but `ActionType` is a
string enum, so at runtime `action` is always a string and the
`typeof action === 'string'` test in the catch block is always true: the
offline fallback is always invoked as `getOfflineResponse(action, undefined)`.
The remote call `sendFollowUp` is modelled by its outcome `api : Except String
String` (`.error` covers both missing credentials and network failures, which
the service maps to thrown errors); it is consulted only when the handler is
not already in offline mode. `now` models `Date.now()` and `nowIso` models
`new Date().toISOString()`. -/

def jsToUpper (s : String) : String := String.mk (s.data.map Char.toUpper)

/-- `String.prototype.replace('_', ' ')`: first occurrence only. -/
def replaceFirstUnderscore : List Char → List Char
  | [] => []
  | c :: rest => if c = '_' then ' ' :: rest else c :: replaceFirstUnderscore rest

/-- The user bubble text of `handleAction`: `Apply: <UPPERCASED>` for an
`ActionType` value, the raw text otherwise. -/
def displayTextFor (action : String) : String :=
  if actionTypeValues.contains action then
    "Apply: " ++ String.mk (replaceFirstUnderscore (jsToUpper action).data)
  else action

/-- The sequence of dispatches `handleAction` performs, in order. -/
def handleActionDispatches (st : AppState) (action : String) (now : Nat) (nowIso : String)
    (api : Except String String) : List AppAction :=
  let displayUserText := displayTextFor action
  let addUser :=
    match st.messages.getLast? with
    | none => true
    | some m => ¬(m.role = Sender.user ∧ m.text = displayUserText)
  let userActs :=
    if addUser then
      [AppAction.addMessage
        { id := toString now, role := Sender.user, text := displayUserText }]
    else []
  let offlineActs :=
    [AppAction.setOfflineMode true,
     AppAction.addMessage
       { id := toString (now + 1), role := Sender.bot, text := getMockResponse action none }]
  let branchActs :=
    if st.isOfflineMode then offlineActs
    else
      match api with
      | .ok raw =>
          processResponseActions st nowIso raw ++
            [AppAction.addMessage
              { id := toString (now + 1), role := Sender.bot, text := processResponseText raw }]
      | .error _ => offlineActs
  [AppAction.setLoading true] ++ userActs ++ branchActs ++ [AppAction.setLoading false]

/-- `handleAction`: the resulting state after all dispatches are reduced in
order, paired with whether the remote API (`sendFollowUp`) was invoked. -/
def handleAction (st : AppState) (action : String) (now : Nat) (nowIso : String)
    (api : Except String String) : AppState × Bool :=
  (List.foldl (appReducer now) st (handleActionDispatches st action now nowIso api),
   !st.isOfflineMode)

/-! ## Audio playback (src/services/audioUtils.ts, `playAudioStream`)

The module keeps one `currentSource` variable. Each `playAudioStream` call
stops and disconnects the tracked source (if any) before starting a new one;
the new source's `onended` handler clears `currentSource` when it still refers
to that source. Sources are identified by allocation order; `stopped` records
every source that has been stopped or has ended (i.e. is no longer playing). -/

structure AudioState where
  currentSource : Option Nat
  started : List Nat
  stopped : List Nat
  nextId : Nat
deriving Repr, DecidableEq

/-- The initial module state: no context, no tracked source. -/
def audioInit : AudioState := { currentSource := none, started := [], stopped := [], nextId := 0 }

inductive AudioEvent where
  | play
  | ended (sid : Nat)
deriving Repr, DecidableEq

/-- One step of the audio module: a `playAudioStream` call (stop and disconnect
the tracked source, then start and track a fresh one), or the `onended`
callback of source `sid` firing (the source is done; `currentSource` is cleared
only if it still refers to `sid`). -/
def audioStep (st : AudioState) (e : AudioEvent) : AudioState :=
  match e with
  | .play =>
      let st1 :=
        match st.currentSource with
        | some s => { st with stopped := s :: st.stopped, currentSource := none }
        | none => st
      { st1 with
          started := st1.nextId :: st1.started
          currentSource := some st1.nextId
          nextId := st1.nextId + 1 }
  | .ended sid =>
      let st1 := { st with stopped := sid :: st.stopped }
      if st.currentSource = some sid then { st1 with currentSource := none } else st1

/-- The module state after a sequence of events starting from module load. -/
def audioRun (evs : List AudioEvent) : AudioState :=
  List.foldl audioStep audioInit evs

/-- A source that has been started and neither stopped nor ended. -/
def audioActive (st : AudioState) (s : Nat) : Prop :=
  s ∈ st.started ∧ s ∉ st.stopped

/-! ## Concrete sample data used by the witnesses -/

def exProfile : UserProfile where
  name := "Student"
  weakTopics := []
  strongTopics := []
  totalSessions := 0
  streakDays := 1
  lastStudyDate := "2024-05-01T10:00:00.000Z"

def exUserMsg : ChatMessage := { id := "10", role := Sender.user, text := "What is gravity" }

def exBotMsg : ChatMessage := { id := "11", role := Sender.bot, text := "Gravity pulls things down" }

def exSession : ChatSession := { id := "1", title := "T1", timestamp := 1, messages := [exUserMsg] }

def exSession2 : ChatSession := { id := "2", title := "T2", timestamp := 2, messages := [] }

def exState : AppState where
  messages := [exUserMsg, exBotMsg]
  chatHistory := [exSession, exSession2]
  currentSessionId := some "1"
  isLoading := false
  currentMode := AppMode.chat
  error := none
  userProfile := exProfile
  isProfileOpen := false
  youtubeLink := ""
  isListening := false
  isOfflineMode := false

/-! ## Theorems -/

/-- **C5.** Dispatching DELETE_SESSION with an id removes exactly the sessions
whose id equals the payload from `chatHistory` and leaves every other session,
in order, unchanged; if the deleted id equals `currentSessionId` then
`messages` becomes empty, `currentSessionId` becomes null and `currentMode`
becomes UPLOAD, otherwise those three fields are unchanged; all remaining
state fields are unchanged in both cases. -/
theorem deleteSession_spec (now : Nat) (st : AppState) (sid : String) (st' : AppState)
    (hs : st' = appReducer now st (.deleteSession sid)) :
    st'.chatHistory = st.chatHistory.filter (fun s => s.id ≠ sid) ∧
    st'.chatHistory.Sublist st.chatHistory ∧
    (∀ s, s ∈ st'.chatHistory ↔ s ∈ st.chatHistory ∧ s.id ≠ sid) ∧
    (st.currentSessionId = some sid →
      st'.messages = [] ∧ st'.currentSessionId = none ∧ st'.currentMode = AppMode.upload) ∧
    (st.currentSessionId ≠ some sid →
      st'.messages = st.messages ∧ st'.currentSessionId = st.currentSessionId ∧
        st'.currentMode = st.currentMode) ∧
    st'.isLoading = st.isLoading ∧ st'.error = st.error ∧ st'.userProfile = st.userProfile ∧
    st'.isProfileOpen = st.isProfileOpen ∧ st'.youtubeLink = st.youtubeLink ∧
    st'.isListening = st.isListening ∧ st'.isOfflineMode = st.isOfflineMode := by
  subst hs
  unfold appReducer
  by_cases h : st.currentSessionId = some sid <;>
    simp [h, List.filter_sublist, List.mem_filter]

theorem deleteSession_spec_witness :
    (appReducer 5 exState (.deleteSession "1")).messages = [] ∧
    (appReducer 5 exState (.deleteSession "1")).currentSessionId = none ∧
    (appReducer 5 exState (.deleteSession "1")).currentMode = AppMode.upload :=
  (deleteSession_spec 5 exState "1" _ rfl).2.2.2.1 rfl

/-- **C10.** Dispatching UPDATE_MESSAGE_AUDIO changes only the
`isAudioPlaying` field of messages whose id equals the payload id: the number
and order of messages are preserved, every other field of every message is
unchanged, every message with a non-matching id is unchanged, all other state
fields are unchanged, and if no message has the given id the whole state is
unchanged. -/
theorem updateMessageAudio_spec (now : Nat) (st : AppState) (mid : String) (fl : Bool)
    (st' : AppState) (hs : st' = appReducer now st (.updateMessageAudio mid fl)) :
    st'.messages.length = st.messages.length ∧
    (∀ (i : Nat) (m m' : ChatMessage), st.messages[i]? = some m → st'.messages[i]? = some m' →
        m'.id = m.id ∧ m'.role = m.role ∧ m'.text = m.text ∧ m'.image = m.image ∧
        (m.id ≠ mid → m' = m) ∧ (m.id = mid → m'.isAudioPlaying = some fl)) ∧
    st'.chatHistory = st.chatHistory ∧ st'.currentSessionId = st.currentSessionId ∧
    st'.isLoading = st.isLoading ∧ st'.currentMode = st.currentMode ∧ st'.error = st.error ∧
    st'.userProfile = st.userProfile ∧ st'.isProfileOpen = st.isProfileOpen ∧
    st'.youtubeLink = st.youtubeLink ∧ st'.isListening = st.isListening ∧
    st'.isOfflineMode = st.isOfflineMode ∧
    ((∀ m ∈ st.messages, m.id ≠ mid) → st' = st) := by
  subst hs
  simp only [appReducer]
  refine ⟨by simp, ?_, by trivial, by trivial, by trivial, by trivial, by trivial,
    by trivial, by trivial, by trivial, by trivial, by trivial, ?_⟩
  · intro i m m' hm hm'
    rw [List.getElem?_map, hm] at hm'
    simp only [Option.map_some', Option.some.injEq] at hm'
    by_cases hid : m.id = mid
    · simp only [hid, if_pos rfl] at hm'
      subst hm'
      simp [hid]
    · simp only [if_neg hid] at hm'
      subst hm'
      simp [hid]
  · intro h
    have hmap : st.messages.map
        (fun m => if m.id = mid then { m with isAudioPlaying := some fl } else m) =
        st.messages := by
      rw [List.map_congr_left (g := id), List.map_id]
      intro m hm
      simp [h m hm]
    rw [hmap]

theorem updateMessageAudio_spec_witness :
    (appReducer 5 exState (.updateMessageAudio "zzz" true)) = exState :=
  (updateMessageAudio_spec 5 exState "zzz" true _ rfl).2.2.2.2.2.2.2.2.2.2.2.2
    (by decide)

theorem nodup_filter_append_singleton (ch : List ChatSession) (sid : String)
    (sess : ChatSession) (hsess : sess.id = sid)
    (h : (ch.map ChatSession.id).Nodup) :
    (((ch.filter (fun s => s.id ≠ sid)) ++ [sess]).map ChatSession.id).Nodup := by
  rw [List.map_append, List.nodup_append]
  refine ⟨?_, by simp, ?_⟩
  · exact ((ch.filter_sublist (p := fun s => decide (s.id ≠ sid))).map ChatSession.id).nodup h
  · intro x hx
    simp only [List.mem_map, List.mem_filter, decide_eq_true_eq] at hx
    obtain ⟨s, ⟨_, hne⟩, rfl⟩ := hx
    simp [hsess, hne]

/-- **C3.** Session identifiers in `chatHistory` are pairwise distinct and every
reducer action preserves this; in particular after ADD_MESSAGE (creating a new
session when `currentSessionId` is null, or updating the existing one) at most
one entry of `chatHistory` has any given id. -/
theorem appReducer_sessionIds_nodup (now : Nat) (st : AppState) (a : AppAction)
    (h : (st.chatHistory.map ChatSession.id).Nodup) :
    (((appReducer now st a).chatHistory.map ChatSession.id).Nodup) ∧
    (∀ x, ((appReducer now st a).chatHistory.map ChatSession.id).count x ≤ 1) := by
  have main : ((appReducer now st a).chatHistory.map ChatSession.id).Nodup := by
    cases a with
    | addMessage payload =>
        simp only [appReducer, addMessageReducer]
        exact nodup_filter_append_singleton _ _ _ rfl h
    | deleteSession sid =>
        simp only [appReducer]
        split <;>
          exact ((st.chatHistory.filter_sublist
            (p := fun s => decide (s.id ≠ sid))).map ChatSession.id).nodup h
    | clearHistory => simp [appReducer]
    | setMessages payload => exact h
    | setLoading payload => exact h
    | setMode payload => exact h
    | setError payload => exact h
    | updateProfile payload => exact h
    | toggleProfile payload => exact h
    | setYoutubeLink payload => exact h
    | setListening payload => exact h
    | resetApp => exact h
    | setOfflineMode payload => exact h
    | updateMessageAudio mid fl => exact h
    | loadSession payload => exact h
  exact ⟨main, fun x => List.nodup_iff_count_le_one.mp main x⟩

theorem appReducer_sessionIds_nodup_witness :
    (((appReducer 7 exState (.addMessage exBotMsg)).chatHistory.map ChatSession.id).Nodup) ∧
    (∀ x, ((appReducer 7 exState (.addMessage exBotMsg)).chatHistory.map ChatSession.id).count x ≤ 1) :=
  appReducer_sessionIds_nodup 7 exState (.addMessage exBotMsg) (by decide)

/-- Modelled from the spec sentence "title (derived from first message)" and the
claim: the title of a freshly created session, as a function of the resulting
message list — "Image Question" when the first user message has an image,
otherwise its first 30 characters with "..." appended exactly when the text is
longer than 30 characters, and "New Chat" when no user message exists. -/
def specTitle (msgs : List ChatMessage) : String :=
  match msgs.find? (fun m => m.role = Sender.user) with
  | none => "New Chat"
  | some m =>
      if jsTruthyStr m.image then "Image Question"
      else m.text.take 30 ++ (if m.text.length > 30 then "..." else "")

/-- **C4.** When ADD_MESSAGE creates a new session (`currentSessionId` is
null), the appended history entry carries the title derived from the first
user message of the resulting message list ("Image Question" / 30-character
truncation with "..." / "New Chat"), the timestamp as its id, and the full
message list. -/
theorem addMessage_new_session_entry (now : Nat) (st : AppState) (msg : ChatMessage)
    (h : st.currentSessionId = none) :
    (appReducer now st (.addMessage msg)).chatHistory.getLast? =
      some { id := toString now, title := specTitle (st.messages ++ [msg]),
             timestamp := now, messages := st.messages ++ [msg] } := by
  simp [appReducer, addMessageReducer, h, jsTruthyStr, specTitle]
  generalize ((List.find? (fun m => decide (m.role = Sender.user)) st.messages).or
    (if msg.role = Sender.user then some msg else none)) = o
  cases o <;> rfl

theorem addMessage_new_session_entry_witness :
    (appReducer 7 { exState with currentSessionId := none }
        (.addMessage exUserMsg)).chatHistory.getLast? =
      some { id := toString 7,
             title := specTitle (exState.messages ++ [exUserMsg]),
             timestamp := 7, messages := exState.messages ++ [exUserMsg] } :=
  addMessage_new_session_entry 7 { exState with currentSessionId := none } exUserMsg rfl

/-- **C1.** When the handler is already in offline mode, `handleAction` does
not invoke the remote API and appends a static canned bot response; when it is
not in offline mode and the remote call fails, the error is caught locally,
the global `isOfflineMode` flag is set to true, and a canned fallback bot
message is appended. -/
theorem handleAction_offline_fallback (st : AppState) (action : String) (now : Nat)
    (nowIso : String) (api : Except String String) :
    (st.isOfflineMode = true →
      (handleAction st action now nowIso api).2 = false ∧
      (handleAction st action now nowIso api).1.isOfflineMode = true ∧
      (handleAction st action now nowIso api).1.messages.getLast? =
        some { id := toString (now + 1), role := Sender.bot,
               text := getMockResponse action none }) ∧
    (∀ e, st.isOfflineMode = false → api = .error e →
      (handleAction st action now nowIso api).2 = true ∧
      (handleAction st action now nowIso api).1.isOfflineMode = true ∧
      (handleAction st action now nowIso api).1.messages.getLast? =
        some { id := toString (now + 1), role := Sender.bot,
               text := getMockResponse action none }) := by
  constructor
  · intro hoff
    simp only [handleAction, handleActionDispatches, hoff, if_true]
    refine ⟨by simp, ?_⟩
    split <;>
      simp [appReducer, addMessageReducer, List.foldl]
  · intro e hoff hapi
    subst hapi
    simp only [handleAction, handleActionDispatches, hoff, if_false]
    refine ⟨by simp, ?_⟩
    split <;>
      simp [appReducer, addMessageReducer, List.foldl]

theorem handleAction_offline_fallback_witness :
    (handleAction { exState with isOfflineMode := true } "quiz" 20
        "2024-05-02T09:00:00.000Z" (.ok "resp")).2 = false ∧
    (handleAction { exState with isOfflineMode := true } "quiz" 20
        "2024-05-02T09:00:00.000Z" (.ok "resp")).1.isOfflineMode = true ∧
    (handleAction { exState with isOfflineMode := true } "quiz" 20
        "2024-05-02T09:00:00.000Z" (.ok "resp")).1.messages.getLast? =
      some { id := toString (20 + 1), role := Sender.bot,
             text := getMockResponse "quiz" none } :=
  (handleAction_offline_fallback { exState with isOfflineMode := true } "quiz" 20
    "2024-05-02T09:00:00.000Z" (.ok "resp")).1 rfl

/-- **C7.** For every input string and optional action, the offline fallback
returns a non-empty canned text, and it agrees with the specification's
description of the engine: topic keywords first (photosynthesis, balance sheet,
newton/law), then YouTube links, then the per-action mock of a recognized
action (one with an entry in the mock table — EXPLAIN has none), and otherwise
the generic fallback embedding the first 50 characters of the input. -/
theorem getMockResponse_spec (input : String) (action : Option ActionType) :
    getMockResponse input action = specOfflineResponse input action ∧
    getMockResponse input action ≠ "" := by
  have hlower : (if input = "" then "" else jsToLowerCase input) = jsToLowerCase input := by
    split
    · next h => rw [h]; decide
    · rfl
  have hpre : (0 : Nat) <
      ("🤖 **Offline Mode Active:**\n\nMaine tumhara question padha: _\"").length := by decide
  have hgeneric : genericMock input ≠ "" := by
    intro hcontra
    have h2 := congrArg String.length hcontra
    rw [show ("" : String).length = 0 from rfl] at h2
    simp only [genericMock, String.length_append] at h2
    omega
  constructor
  · simp only [getMockResponse, specOfflineResponse, hlower]
    split
    · rfl
    · split
      · rfl
      · split
        · rfl
        · split
          · rfl
          · cases action with
            | none => rfl
            | some a => cases a <;> rfl
  · simp only [getMockResponse, hlower]
    split
    · decide
    · split
      · decide
      · split
        · decide
        · split
          · decide
          · cases action with
            | none => exact hgeneric
            | some a =>
              cases a with
              | explain => exact hgeneric
              | simplify => exact (show simplifyMock ≠ "" by decide)
              | notes => exact (show notesMock ≠ "" by decide)
              | quiz => exact (show quizMock ≠ "" by decide)
              | eli5 => exact (show eli5Mock ≠ "" by decide)
              | diagram => exact (show diagramMock ≠ "" by decide)
              | mnemonic => exact (show mnemonicMock ≠ "" by decide)
              | revision => exact (show revisionMock ≠ "" by decide)
              | practice => exact (show practiceMock ≠ "" by decide)

theorem removeBackticks_no_backtick (l : List Char) : '\x60' ∉ removeBackticks l := by
  induction l with
  | nil => simp [removeBackticks]
  | cons c rest ih =>
    rw [removeBackticks]
    split
    · exact ih
    · next h =>
      intro hmem
      rcases List.mem_cons.mp hmem with h1 | h1
      · exact h h1.symm
      · exact ih h1

theorem scanToParen_sublist : ∀ (l rem : List Char), scanToParen l = some rem → rem.Sublist l := by
  intro l
  induction l with
  | nil => intro rem h; simp [scanToParen] at h
  | cons c rest ih =>
    intro rem h
    simp only [scanToParen] at h
    split at h
    · simp only [Option.some.injEq] at h
      subst h
      exact (List.sublist_cons_self c rest)
    · split at h
      · simp at h
      · exact (ih rem h).trans (List.sublist_cons_self c rest)

theorem trySourceAt_sublist : ∀ (l rem : List Char), trySourceAt l = some rem → rem.Sublist l := by
  intro l rem h
  rw [trySourceAt.eq_def] at h
  split at h
  · next rest =>
    have h1 := scanToParen_sublist _ _ h
    refine h1.trans ?_
    apply List.Sublist.cons
    apply List.Sublist.cons
    apply List.Sublist.cons
    apply List.Sublist.cons
    apply List.Sublist.cons
    apply List.Sublist.cons
    apply List.Sublist.cons
    apply List.Sublist.cons
    apply List.Sublist.cons
    exact List.Sublist.refl rest
  · simp at h

theorem removeSources_subset (l : List Char) : ∀ c ∈ removeSources l, c ∈ l := by
  induction l using removeSources.induct with
  | case1 => simp [removeSources]
  | case2 c rest rem h2 ih =>
    rw [removeSources, h2]
    intro x hx
    exact (trySourceAt_sublist _ _ h2).subset (ih x hx)
  | case3 c rest h2 ih =>
    rw [removeSources, h2]
    intro x hx
    rcases List.mem_cons.mp hx with h1 | h1
    · simp [h1]
    · exact List.mem_cons_of_mem c (ih x h1)

/-- **C8.** `generateSpeech` cleans the input (removing `###`, `**`,
`[[TOPIC: ...]]` tags, backticks and `[Source](...)` links, in source order)
and truncates to 800 characters: the text sent to the TTS model never exceeds
800 characters, and contains no backtick. -/
theorem ttsCleanText_spec (text : String) :
    (ttsCleanText text).length ≤ 800 ∧ '\x60' ∉ (ttsCleanText text).data := by
  rw [ttsCleanText]
  set cleaned :=
    removeSources (removeBackticks (removeTopicTags (removeBold (removeHashes text.data))))
    with hcleaned
  have hnb : '\x60' ∉ cleaned := by
    rw [hcleaned]
    intro hmem
    exact removeBackticks_no_backtick _
      (removeSources_subset _ _ hmem)
  constructor
  · split
    · next h =>
      show (String.mk (cleaned.take 800)).length ≤ 800
      simp
    · next h =>
      show (String.mk cleaned).length ≤ 800
      exact Nat.le_of_not_lt h
  · split
    · next h =>
      show '\x60' ∉ (String.mk (cleaned.take 800)).data
      intro hmem
      exact hnb ((cleaned.take_sublist 800).subset hmem)
    · next h => exact hnb

/-- The audio module invariant: every started source that has not been stopped
or ended is the tracked `currentSource`. -/
def audioInv (st : AudioState) : Prop :=
  ∀ s ∈ st.started, s ∉ st.stopped → st.currentSource = some s

theorem audioStep_inv (st : AudioState) (e : AudioEvent) (h : audioInv st) :
    audioInv (audioStep st e) := by
  cases e with
  | play =>
    cases hcur : st.currentSource with
    | none =>
      intro s hs hns
      simp only [audioStep, hcur] at hs hns ⊢
      rcases List.mem_cons.mp hs with h1 | h1
      · simp [h1]
      · exact absurd (h s h1 hns) (by simp [hcur])
    | some s0 =>
      intro s hs hns
      simp only [audioStep, hcur] at hs hns ⊢
      rcases List.mem_cons.mp hs with h1 | h1
      · simp [h1]
      · have hns' : s ∉ st.stopped := fun hc => hns (List.mem_cons_of_mem _ hc)
        have := h s h1 hns'
        rw [hcur] at this
        have hss0 : s = s0 := by simpa using this.symm
        exact absurd (List.mem_cons_self s0 st.stopped) (hss0 ▸ hns)
  | ended sid =>
    intro s hs hns
    by_cases hcur : st.currentSource = some sid
    · simp only [audioStep, if_pos hcur] at hs hns ⊢
      have hns' : s ∉ st.stopped := fun hc => hns (List.mem_cons_of_mem _ hc)
      have hcs := h s hs hns'
      rw [hcur] at hcs
      have : s = sid := by simpa using hcs.symm
      exact absurd (List.mem_cons_self sid st.stopped) (this ▸ hns)
    · simp only [audioStep, if_neg hcur] at hs hns ⊢
      have hns' : s ∉ st.stopped := fun hc => hns (List.mem_cons_of_mem _ hc)
      exact h s hs hns'

theorem audioFoldl_inv (evs : List AudioEvent) (st : AudioState) (h : audioInv st) :
    audioInv (List.foldl audioStep st evs) := by
  induction evs generalizing st with
  | nil => exact h
  | cons e rest ih => exact ih _ (audioStep_inv st e h)

theorem audioRun_inv (evs : List AudioEvent) : audioInv (audioRun evs) :=
  audioFoldl_inv evs audioInit (by intro s hs _; simp [audioInit] at hs)

/-- **C6.** After any sequence of `playAudioStream` calls (and source-ended
callbacks) the module tracks at most one started, un-stopped source: any two
active sources are equal and every active source is the tracked
`currentSource`; a further `playAudioStream` call stops the tracked source
before starting the new one, and the tracked source's `onended` callback
clears `currentSource`. -/
theorem playAudioStream_single_source (evs : List AudioEvent) :
    (∀ s1 s2, audioActive (audioRun evs) s1 → audioActive (audioRun evs) s2 → s1 = s2) ∧
    (∀ s, audioActive (audioRun evs) s → (audioRun evs).currentSource = some s) ∧
    (∀ c, (audioRun evs).currentSource = some c →
      c ∈ (audioStep (audioRun evs) .play).stopped ∧
      (audioStep (audioRun evs) (.ended c)).currentSource = none) := by
  have hinv := audioRun_inv evs
  refine ⟨?_, ?_, ?_⟩
  · intro s1 s2 h1 h2
    have e1 := hinv s1 h1.1 h1.2
    have e2 := hinv s2 h2.1 h2.2
    rw [e1] at e2
    exact (Option.some.injEq _ _ ▸ e2).symm ▸ rfl
  · intro s h1
    exact hinv s h1.1 h1.2
  · intro c hc
    constructor
    · simp [audioStep, hc]
    · simp [audioStep, hc]

theorem playAudioStream_single_source_witness :
    (audioRun [AudioEvent.play, AudioEvent.play]).currentSource = some 1 ∧
    1 ∈ (audioRun [AudioEvent.play, AudioEvent.play]).started ∧
    1 ∉ (audioRun [AudioEvent.play, AudioEvent.play]).stopped ∧
    0 ∈ (audioRun [AudioEvent.play, AudioEvent.play]).stopped ∧
    (audioStep (audioRun [AudioEvent.play, AudioEvent.play]) (.ended 1)).currentSource = none := by
  refine ⟨by decide, by decide, by decide, by decide, ?_⟩
  exact ((playAudioStream_single_source [AudioEvent.play, AudioEvent.play]).2.2 1 (by decide)).2

/-! ### C2: the topic-tag stripping of `processResponse` -/

/-- The literal prefix `[[TOPIC:` of both topic-tag regexes. -/
def topicPat : List Char := ['[', '[', 'T', 'O', 'P', 'I', 'C', ':']

/-- Whether `[[TOPIC:` occurs anywhere in the text (a necessary condition for
either topic-tag regex to match). -/
def hasTopicStart : List Char → Bool
  | [] => false
  | c :: rest => topicPat.isPrefixOf (c :: rest) || hasTopicStart rest

theorem topicGroupAt_none (l : List Char) (h : topicPat.isPrefixOf l = false) :
    topicGroupAt l = none := by
  rw [topicGroupAt.eq_def]
  split
  · next rest => simp [topicPat, List.isPrefixOf] at h
  · rfl

theorem tryTagAt_none (l : List Char) (h : topicPat.isPrefixOf l = false) :
    tryTagAt l = none := by
  rw [tryTagAt.eq_def]
  split
  · next rest => simp [topicPat, List.isPrefixOf] at h
  · rfl

theorem findTopicGroup_none (l : List Char) (h : hasTopicStart l = false) :
    findTopicGroup l = none := by
  induction l with
  | nil => rfl
  | cons c rest ih =>
    rw [hasTopicStart] at h
    simp only [Bool.or_eq_false_iff] at h
    rw [findTopicGroup, topicGroupAt_none _ h.1]
    exact ih h.2

theorem isPrefixOf_topicPat_false (c : Char) (l : List Char) (h : c ≠ '[') :
    topicPat.isPrefixOf (c :: l) = false := by
  cases l with
  | nil => simp [topicPat, List.isPrefixOf]
  | cons d rest =>
    simp only [topicPat, List.isPrefixOf, Bool.and_eq_false_iff, beq_eq_false_iff_ne, ne_eq]
    left
    exact fun heq => h heq.symm

theorem topicGroupAt_not_lbracket (c : Char) (l : List Char) (h : c ≠ '[') :
    topicGroupAt (c :: l) = none :=
  topicGroupAt_none _ (isPrefixOf_topicPat_false c l h)

theorem tryTagAt_not_lbracket (c : Char) (l : List Char) (h : c ≠ '[') :
    tryTagAt (c :: l) = none :=
  tryTagAt_none _ (isPrefixOf_topicPat_false c l h)

theorem findTopicGroup_append (a t : List Char) (ha : '[' ∉ a) :
    findTopicGroup (a ++ t) = findTopicGroup t := by
  induction a with
  | nil => rfl
  | cons c a' ih =>
    have hc : c ≠ '[' := fun hcontra => ha (hcontra ▸ List.mem_cons_self c a')
    rw [List.cons_append, findTopicGroup,
      topicGroupAt_not_lbracket c _ hc]
    exact ih (fun hm => ha (List.mem_cons_of_mem c hm))

theorem scanGroupCollect_name (name b : List Char)
    (hn : ∀ c ∈ name, isJsLineTerm c = false ∧ c ≠ ']') :
    scanGroupCollect (name ++ ']' :: ']' :: b) = some name := by
  induction name with
  | nil => simp [scanGroupCollect]
  | cons n0 n' ih =>
    have h0 := hn n0 (List.mem_cons_self n0 n')
    rw [List.cons_append, scanGroupCollect]
    rw [if_neg (by simp [h0.2]), if_neg (by simp [h0.1])]
    rw [ih (fun c hc => hn c (List.mem_cons_of_mem n0 hc))]
    rfl

theorem scanToClose_name (name b : List Char)
    (hn : ∀ c ∈ name, isJsLineTerm c = false ∧ c ≠ ']') :
    scanToClose (name ++ ']' :: ']' :: b) = some b := by
  induction name with
  | nil => simp [scanToClose]
  | cons n0 n' ih =>
    have h0 := hn n0 (List.mem_cons_self n0 n')
    rw [List.cons_append, scanToClose]
    rw [if_neg (by simp [h0.2]), if_neg (by simp [h0.1])]
    exact ih (fun c hc => hn c (List.mem_cons_of_mem n0 hc))

theorem topicGroupAt_tag (name b : List Char) (hname : name ≠ [])
    (hn : ∀ c ∈ name, isJsWs c = false ∧ isJsLineTerm c = false ∧ c ≠ ']') :
    topicGroupAt ('[' :: '[' :: 'T' :: 'O' :: 'P' :: 'I' :: 'C' :: ':' :: ' ' ::
      (name ++ ']' :: ']' :: b)) = some name := by
  rw [topicGroupAt]
  have hdrop : (' ' :: (name ++ ']' :: ']' :: b)).dropWhile isJsWs =
      name ++ ']' :: ']' :: b := by
    rw [List.dropWhile_cons_of_pos (by decide)]
    cases name with
    | nil => exact absurd rfl hname
    | cons n0 n' =>
      rw [List.cons_append]
      exact List.dropWhile_cons_of_neg (by simp [(hn n0 (List.mem_cons_self n0 n')).1])
  rw [hdrop]
  exact scanGroupCollect_name name b (fun c hc => ⟨(hn c hc).2.1, (hn c hc).2.2⟩)

theorem tryTagAt_tag (name b : List Char)
    (hn : ∀ c ∈ name, isJsLineTerm c = false ∧ c ≠ ']') :
    tryTagAt ('[' :: '[' :: 'T' :: 'O' :: 'P' :: 'I' :: 'C' :: ':' :: ' ' ::
      (name ++ ']' :: ']' :: b)) = some b := by
  rw [tryTagAt]
  rw [scanToClose]
  rw [if_neg (by simp), if_neg (by decide)]
  exact scanToClose_name name b hn

theorem stripFirstTopicTag_append (a name b : List Char) (ha : '[' ∉ a)
    (hn : ∀ c ∈ name, isJsLineTerm c = false ∧ c ≠ ']') :
    stripFirstTopicTag (a ++ '[' :: '[' :: 'T' :: 'O' :: 'P' :: 'I' :: 'C' :: ':' :: ' ' ::
      (name ++ ']' :: ']' :: b)) = a ++ b := by
  induction a with
  | nil =>
    rw [List.nil_append, stripFirstTopicTag, tryTagAt_tag name b hn]
    rfl
  | cons c a' ih =>
    have hc : c ≠ '[' := fun hcontra => ha (hcontra ▸ List.mem_cons_self c a')
    rw [List.cons_append, stripFirstTopicTag, tryTagAt_not_lbracket c _ hc]
    rw [ih (fun hm => ha (List.mem_cons_of_mem c hm))]
    rfl

theorem string_append_data (a b : String) : (a ++ b).data = a.data ++ b.data := rfl

/-- **C2 (amended).** `processResponse` strips the FIRST topic tag from the
displayed text: for a text of the form `a ++ "[[TOPIC: " ++ name ++ "]]" ++ b`
(with `a` free of `[`, `name` non-empty and free of whitespace, line
terminators and `]`), the returned text is `a ++ b` trimmed — the original
claim's "the returned text contains no topic tag" fails when `b` holds a
second tag, which survives. A text in which `[[TOPIC:` does not occur is
returned unchanged. -/
theorem processResponse_strips_first_topic_tag :
    (∀ a name b : String, '[' ∉ a.data → name ≠ "" →
        (∀ c ∈ name.data, isJsWs c = false ∧ isJsLineTerm c = false ∧ c ≠ ']') →
        processResponseText (a ++ "[[TOPIC: " ++ name ++ "]]" ++ b) = jsTrim (a ++ b)) ∧
    (∀ raw : String, hasTopicStart raw.data = false → processResponseText raw = raw) := by
  constructor
  · intro a name b ha hname hn
    have hnamel : name.data ≠ [] := by
      intro hcontra
      exact hname (congrArg String.mk hcontra)
    have hdata : (a ++ "[[TOPIC: " ++ name ++ "]]" ++ b).data =
        a.data ++ '[' :: '[' :: 'T' :: 'O' :: 'P' :: 'I' :: 'C' :: ':' :: ' ' ::
          (name.data ++ ']' :: ']' :: b.data) := by
      simp only [string_append_data, List.append_assoc]
      rfl
    have hfind : findTopicGroup (a ++ "[[TOPIC: " ++ name ++ "]]" ++ b).data =
        some name.data := by
      rw [hdata, findTopicGroup_append _ _ ha, findTopicGroup,
        topicGroupAt_tag name.data b.data hnamel hn]
    have hstrip := stripFirstTopicTag_append a.data name.data b.data ha
      (fun c hc => ⟨(hn c hc).2.1, (hn c hc).2.2⟩)
    simp only [processResponseText, hfind]
    rw [if_pos hnamel, hdata, hstrip]
    rfl
  · intro raw h
    rw [processResponseText, findTopicGroup_none _ h]

theorem processResponse_strips_first_topic_tag_witness :
    processResponseText ("Ans: " ++ "[[TOPIC: " ++ "Math" ++ "]]" ++ "") =
      jsTrim ("Ans: " ++ "") :=
  processResponse_strips_first_topic_tag.1 "Ans: " "Math" ""
    (by decide) (by decide) (by decide)

/-- **C2 (counterexample).** With two topic tags in the raw text, only the
first is removed: the returned text still contains a topic tag (the test regex
still matches it, capturing `Y`), contradicting the claim that the returned
text contains no topic tag. -/
theorem processResponse_second_tag_survives :
    processResponseText "a [[TOPIC: X]] b [[TOPIC: Y]]" = "a  b [[TOPIC: Y]]" ∧
    findTopicGroup ("a  b [[TOPIC: Y]]").data = some ['Y'] := by
  constructor
  · decide
  · decide

/-! ### C9: `cleanJson` -/

theorem idxOfChar_spec (t : Char) : ∀ (l : List Char) (n : Nat),
    idxOfChar t l = some n → n < l.length ∧ l[n]? = some t := by
  intro l
  induction l with
  | nil => intro n h; simp [idxOfChar] at h
  | cons c rest ih =>
    intro n h
    rw [idxOfChar] at h
    split at h
    · next hc =>
      simp only [Option.some.injEq] at h
      subst h
      simp [hc]
    · cases hrec : idxOfChar t rest with
      | none => rw [hrec] at h; simp at h
      | some k =>
        rw [hrec] at h
        simp only [Option.map_some', Option.some.injEq] at h
        subst h
        obtain ⟨h1, h2⟩ := ih k hrec
        exact ⟨by simp; omega, by simpa using h2⟩

theorem lastIdxOfChar_spec (t : Char) : ∀ (l : List Char) (n : Nat),
    lastIdxOfChar t l = some n → n < l.length ∧ l[n]? = some t := by
  intro l
  induction l with
  | nil => intro n h; simp [lastIdxOfChar] at h
  | cons c rest ih =>
    intro n h
    rw [lastIdxOfChar] at h
    split at h
    · next k hk =>
      simp only [Option.some.injEq] at h
      subst h
      obtain ⟨h1, h2⟩ := ih k hk
      exact ⟨by simp; omega, by simpa using h2⟩
    · split at h
      · next hc =>
        simp only [Option.some.injEq] at h
        subst h
        simp [hc]
      · simp at h

theorem jsSubstring_spec (l : List Char) (s e : Nat) (hs : s < l.length) (he : e < l.length)
    (hse : s ≤ e) (cs ce : Char) (hcs : l[s]? = some cs) (hce : l[e]? = some ce) :
    (jsSubstring l s (e + 1)).length = e + 1 - s ∧
    (jsSubstring l s (e + 1)).head? = some cs ∧
    (jsSubstring l s (e + 1)).getLast? = some ce := by
  have hmin1 : min s l.length = s := Nat.min_eq_left (Nat.le_of_lt hs)
  have hmin2 : min (e + 1) l.length = e + 1 := Nat.min_eq_left he
  have hres : jsSubstring l s (e + 1) = (l.drop s).take (e + 1 - s) := by
    rw [jsSubstring]
    simp only [hmin1, hmin2]
    rw [Nat.min_eq_left (by omega), Nat.max_eq_right (by omega)]
  rw [hres]
  have hlen : ((l.drop s).take (e + 1 - s)).length = e + 1 - s := by
    simp only [List.length_take, List.length_drop]
    omega
  refine ⟨hlen, ?_, ?_⟩
  · rw [List.head?_eq_getElem?, List.getElem?_take_of_lt (by omega), List.getElem?_drop]
    simpa using hcs
  · rw [List.getLast?_eq_getElem?, hlen]
    have hidx : e + 1 - s - 1 = e - s := by omega
    rw [hidx, List.getElem?_take_of_lt (by omega), List.getElem?_drop]
    have : s + (e - s) = e := by omega
    rw [this]
    exact hce

/-- **C9 (amended).** `cleanJson` returns the literal object braces when the
input is empty or the fence-stripped text misses `{` or `}`; when the first
`{` occurs at or before the last `}`, it returns that non-empty brace-delimited
substring. The original claim fails when the last `}` precedes the first `{`:
JS `substring` swaps its arguments and the result is the text strictly between
them — possibly empty, and not brace-delimited. -/
theorem cleanJson_brace_extraction (text : String) :
    (∀ s e, idxOfChar lbrace (removeFence (removeFenceJson text.data)) = some s →
        lastIdxOfChar rbrace (removeFence (removeFenceJson text.data)) = some e →
        s ≤ e →
        cleanJson text ≠ "" ∧ (cleanJson text).data.head? = some lbrace ∧
          (cleanJson text).data.getLast? = some rbrace) ∧
    ((idxOfChar lbrace (removeFence (removeFenceJson text.data)) = none ∨
        lastIdxOfChar rbrace (removeFence (removeFenceJson text.data)) = none ∨
        text = "") →
      cleanJson text = String.mk [lbrace, rbrace]) := by
  constructor
  · intro s e hs he hse
    have htext : text ≠ "" := by
      intro hcontra
      rw [hcontra, show ("" : String).data = [] from rfl] at hs
      simp [removeFenceJson, removeFence, idxOfChar] at hs
    obtain ⟨hslt, hsel⟩ := idxOfChar_spec lbrace _ _ hs
    obtain ⟨helt, heel⟩ := lastIdxOfChar_spec rbrace _ _ he
    obtain ⟨hlen, hhead, hlast⟩ := jsSubstring_spec _ s e hslt helt hse _ _ hsel heel
    have hval : cleanJson text =
        String.mk (jsSubstring (removeFence (removeFenceJson text.data)) s (e + 1)) := by
      simp only [cleanJson, if_neg htext, hs, he]
    rw [hval]
    refine ⟨?_, hhead, hlast⟩
    intro hcontra
    have := congrArg (fun s => s.data.length) hcontra
    simp only [List.length_nil] at this
    omega
  · intro h
    by_cases htext : text = ""
    · simp [cleanJson, htext]
    · rcases h with h | h | h
      · simp only [cleanJson, if_neg htext, h]
      · cases hidx : idxOfChar lbrace (removeFence (removeFenceJson text.data)) with
        | none => simp only [cleanJson, if_neg htext, hidx]
        | some s => simp only [cleanJson, if_neg htext, hidx, h]
      · exact absurd h htext

/-- **C9 (counterexample).** On the input `}{` both braces are present after
fence stripping, yet `cleanJson` returns the empty string (JS
`substring(1, 1)` after the index swap) — not a non-empty `{`-to-`}`
substring; on `}x{` it returns `"x"`, which neither starts with `{` nor ends
with `}`. -/
theorem cleanJson_swap_cex :
    cleanJson (String.mk [rbrace, lbrace]) = "" ∧
    cleanJson (String.mk [rbrace, 'x', lbrace]) = "x" := by
  constructor
  · decide
  · decide

theorem getMockResponse_spec_witness :
    getMockResponse "Explain PHOTOSYNTHESIS please" none =
      specOfflineResponse "Explain PHOTOSYNTHESIS please" none ∧
    getMockResponse "Explain PHOTOSYNTHESIS please" none ≠ "" :=
  getMockResponse_spec "Explain PHOTOSYNTHESIS please" none

theorem ttsCleanText_spec_witness :
    (ttsCleanText "### Hello **world**").length ≤ 800 ∧
    '\x60' ∉ (ttsCleanText "### Hello **world**").data :=
  ttsCleanText_spec "### Hello **world**"

theorem cleanJson_brace_extraction_witness :
    cleanJson "a\x7bb\x7dc" ≠ "" ∧
    (cleanJson "a\x7bb\x7dc").data.head? = some lbrace ∧
    (cleanJson "a\x7bb\x7dc").data.getLast? = some rbrace :=
  (cleanJson_brace_extraction "a\x7bb\x7dc").1 1 3 (by decide) (by decide) (by decide)

end TutorAI
